import Mathlib

/-!
Verification of the tierforge reconciliation scripts.

The definitions below are shallow embeddings of the Python sources:
  scripts/apply_combo_schools.py   (contrast assignment for combo skills)
  scripts/scrape_all_spells.py     (pass merging into the persisted catalog)
  scripts/batch_fetch_infoboxes.py (batch entry point, exit-code contract)

JSON spell dictionaries are modelled as a structure of optional fields
(a missing key is modelled as `none`; Python `dict.get` returning `None`
corresponds to reading an `Option` field).  Python dicts used as keyed
stores are modelled as association lists with first-key lookup and
replace-or-append insertion, which coincides with dict semantics because
a dict never holds a duplicate key.
-/

namespace TierForge

/-- One spell record of data/spells.json.  Every field is optional, mirroring
a JSON object in which any key may be absent. -/
structure Spell where
  ru_name : Option String := none
  ru_url : Option String := none
  en_name : Option String := none
  en_url : Option String := none
  tier : Option String := none
  primary_school : Option String := none
  secondary_school : Option String := none
  is_combo : Option Bool := none
deriving DecidableEq, Repr

/-- Python truthiness of an optional string: `None` and the empty string are
falsy, every other string is truthy. -/
def truthyS : Option String → Bool
  | none => false
  | some s => !(s == "")

/-- Lookup in a Python dict modelled as an association list: the value at the
first matching key. -/
def lookupD {α : Type} : List (String × α) → String → Option α
  | [], _ => none
  | p :: rest, k => if p.1 = k then some p.2 else lookupD rest k

/-- Python dict assignment `d[k] = v`: replace the value at an existing key in
place, otherwise append the new pair at the end (insertion order). -/
def dictInsert {α : Type} : List (String × α) → String → α → List (String × α)
  | [], k, v => [(k, v)]
  | p :: rest, k, v => if p.1 = k then (k, v) :: rest else p :: dictInsert rest k v

/-- Python `d.update(l)`: assign every pair of `l` into `d` in order. -/
def dictUpdate {α : Type} (d : List (String × α)) (l : List (String × α)) :
    List (String × α) :=
  l.foldl (fun acc p => dictInsert acc p.1 p.2) d

/-! ### apply_combo_schools.py -/

def AERO : String := "Аэротеургия"
def GEO : String := "Геомантия"
def HYDRO : String := "Гидрософистика"
def PYRO : String := "Пирокинетика"
def NECRO : String := "Некромантия"
def POLY : String := "Превращение"
def HUNT : String := "Мастерство охоты"
def SCOUNDREL : String := "Искусство убийства"
def SUMMON : String := "Призывание"
def WARFARE : String := "Военное дело"

/-- DUAL_MAP of apply_combo_schools.py: skill name to its pair of schools
[School A, School B], in the source's order. -/
def dualMap : List (String × String × String) := [
  ("Breathing Bubble", AERO, WARFARE),
  ("Mass Breathing Bubbles", AERO, WARFARE),
  ("Erratic Wisp", AERO, HUNT),
  ("Evasive Aura", AERO, HUNT),
  ("Smoke Cover", AERO, SCOUNDREL),
  ("Blessed Smoke Cloud", AERO, SCOUNDREL),
  ("Vaporize", AERO, POLY),
  ("Jellyfish Skin", AERO, POLY),
  ("Electric Infusion", AERO, SUMMON),
  ("Cursed Electric Infusion", AERO, SUMMON),
  ("Vacuum Touch", AERO, NECRO),
  ("Vacuum Aura", AERO, NECRO),
  ("Oily Carapace", GEO, WARFARE),
  ("Mass Oily Carapace", GEO, WARFARE),
  ("Throw Dust", GEO, HUNT),
  ("Dust Blast", GEO, HUNT),
  ("Venom Coating", GEO, SCOUNDREL),
  ("Venomous Aura", GEO, SCOUNDREL),
  ("Turn to Oil", GEO, POLY),
  ("Poisonous Skin", GEO, POLY),
  ("Poison Infusion", GEO, SUMMON),
  ("Acid Infusion", GEO, SUMMON),
  ("Corrosive Touch", GEO, NECRO),
  ("Corrosive Spray", GEO, NECRO),
  ("Cleanse Wounds", HYDRO, WARFARE),
  ("Mass Cleanse Wounds", HYDRO, WARFARE),
  ("Cryotherapy", HYDRO, HUNT),
  ("Mass Cryotherapy", HYDRO, HUNT),
  ("Vampiric Hunger", HYDRO, SCOUNDREL),
  ("Vampiric Hunger Aura", HYDRO, SCOUNDREL),
  ("Healing Tears", HYDRO, POLY),
  ("Icy Skin", HYDRO, POLY),
  ("Water Infusion", HYDRO, SUMMON),
  ("Ice Infusion", HYDRO, SUMMON),
  ("Raining Blood", HYDRO, NECRO),
  ("Blood Storm", HYDRO, NECRO),
  ("Sparking Swings", PYRO, WARFARE),
  ("Master of Sparks", PYRO, WARFARE),
  ("Throw Explosive Trap", PYRO, HUNT),
  ("Deploy Mass Traps", PYRO, HUNT),
  ("Sabotage", PYRO, SCOUNDREL),
  ("Mass Sabotage", PYRO, SCOUNDREL),
  ("Bleed Fire", PYRO, POLY),
  ("Flaming Skin", PYRO, POLY),
  ("Fire Infusion", PYRO, SUMMON),
  ("Necrofire Infusion", PYRO, SUMMON),
  ("Corpse Explosion", PYRO, NECRO),
  ("Mass Corpse Explosion", PYRO, NECRO)]

/-- Lookup of a skill name in DUAL_MAP. -/
def lookupDual (name : String) : Option (String × String) :=
  (dualMap.find? (fun e => e.1 = name)).map (fun e => e.2)

/-- The four elemental schools: in the source's DUAL_MAP every pair is written
with the elemental school first and the class-style school second (the source
comments group the table by elemental school). -/
def elementalSchools : List String := [AERO, GEO, HYDRO, PYRO]

/-- Target secondary school for a pair [a, b] given the stored primary school
(apply_combo_schools.py lines 98-112).  If the primary is a member of the pair
the target is the first member differing from it; otherwise the source
"defaults to the second item" (components[1]).  The result is `none` exactly
when the Python list indexing would fail, which cannot happen for DUAL_MAP
pairs since their members always differ. -/
def targetSecondary (a b : String) (currentPrimary : Option String) : Option String :=
  match currentPrimary with
  | some p =>
      if p == a || p == b then ([a, b].filter (fun c => c != p)).head?
      else some b
  | none => some b

/-- One contrast step on a spell for the pair [a, b]
(apply_combo_schools.py lines 98-118): if the stored secondary_school differs
from the target, set it, set is_combo, and report a change. -/
def contrastStep (a b : String) (sp : Spell) : Spell × Bool :=
  match targetSecondary a b sp.primary_school with
  | none => (sp, false)
  | some t =>
      if sp.secondary_school = some t then (sp, false)
      else ({ sp with secondary_school := some t, is_combo := some true }, true)

/-- Processing of one catalog entry by apply_combo_schools.py main: the spell's
en_name (defaulting to its key) is looked up in DUAL_MAP; entries not in the
table are left untouched.  Returns the updated spell and its contribution to
fixed_count. -/
def applyComboSpell (key : String) (sp : Spell) : Spell × Nat :=
  match lookupDual (sp.en_name.getD key) with
  | some (a, b) =>
      let r := contrastStep a b sp
      (r.1, if r.2 then 1 else 0)
  | none => (sp, 0)

/-- The inner loop of apply_combo_schools.py main over one school's spells
dict, accumulating the updated dict and the fixed count. -/
def applyComboSpells (spells : List (String × Spell)) : List (String × Spell) × Nat :=
  spells.foldl
    (fun st p =>
      (st.1 ++ [(p.1, (applyComboSpell p.1 p.2).1)], st.2 + (applyComboSpell p.1 p.2).2))
    ([], 0)

/-- One school entry of the persisted catalog ("schools" values in
data/spells.json). -/
structure SchoolRec where
  en_name : String
  ru_url : Option String := none
  spells : List (String × Spell) := []
deriving DecidableEq, Repr

/-- apply_combo_schools.py main over a loaded catalog: every school's spells
are processed in place and the contrast-fix count is accumulated. -/
def applyCombo (schools : List (String × SchoolRec)) : List (String × SchoolRec) × Nat :=
  schools.foldl
    (fun st s =>
      (st.1 ++ [(s.1, { s.2 with spells := (applyComboSpells s.2.spells).1 })],
       st.2 + (applyComboSpells s.2.spells).2))
    ([], 0)

/-- Exit status of apply_combo_schools.py on a successfully loaded catalog:
main returns None after saving, so the process always exits 0, whatever
diagnostics were printed. -/
def applyComboExit (schools : List (String × SchoolRec)) : Nat :=
  let _ := applyCombo schools
  0

/-! ### scrape_all_spells.py -/

/-- SCHOOL_NAME_MAP of scrape_all_spells.py (English key, Russian name). -/
def SCHOOL_NAME_MAP : List (String × String) := [
  ("Aerotheurge", "Аэротеургия"),
  ("Warfare", "Военное дело"),
  ("Geomancer", "Геомантия"),
  ("Hydrosophist", "Гидрософистика"),
  ("Scoundrel", "Искусство убийства"),
  ("Huntsman", "Мастерство охоты"),
  ("Necromancer", "Некромантия"),
  ("Pyrokinetic", "Пирокинетика"),
  ("Polymorph", "Превращение"),
  ("Summoning", "Призывание")]

/-- RU_TO_EN_SCHOOL lookup: the English key for a Russian school name. -/
def ruToEnSchool (ru : String) : Option String :=
  (SCHOOL_NAME_MAP.find? (fun p => p.2 = ru)).map (fun p => p.1)

/-- Base of the generated Fextralife URLs.  The source percent-encodes the
name with urllib quote; the encoding itself is presentation-layer string
munging (injective on names), so the embedding appends the raw name. -/
def fextraBase : String := "https://divinityoriginalsin2.wiki.fextralife.com/"

/-- Removal of every occurrence of the degree sign from a character list,
the semantics of Python replace("°", "") for the one-character pattern. -/
def dropDegree (l : List Char) : List Char := l.filter (fun c => c != '°')

/-- Removal of every occurrence of the marker "[DE]", the semantics of
Python replace("[DE]", ""): a left-to-right non-overlapping scan. -/
def dropDeMarker : List Char → List Char
  | '[' :: 'D' :: 'E' :: ']' :: rest => dropDeMarker rest
  | c :: rest => c :: dropDeMarker rest
  | [] => []

/-- Leading-whitespace removal on a character list. -/
def dropLeadingWs : List Char → List Char
  | c :: rest => if c.isWhitespace then dropLeadingWs rest else c :: rest
  | [] => []

/-- Python str.strip(): leading and trailing whitespace removed. -/
def stripWs (l : List Char) : List Char :=
  (dropLeadingWs ((dropLeadingWs l).reverse)).reverse

/-- The ru_name cleaning of parse_skill_table line 122:
ru_name.replace("°", "").replace("[DE]", "").strip(). -/
def cleanRuName (raw : String) : String :=
  ⟨stripWs (dropDeMarker (dropDegree raw.data))⟩

/-- One table row as seen by parse_skill_table after the HTML extraction
layer (which is outside the engine per the spec's boundary): either a tier
header cell (a th with colspan, carrying its stripped text), or a spell row
carrying the extracted link text, the resolved absolute link URL, and the
outcome of the English-name resolution chain (existing mapping, then page
fetch; `none` when both failed, triggering the Russian-name fallback). -/
inductive Row where
  | tierHeader (text : String)
  | spellRow (ruNameRaw : String) (ruUrl : String) (resolvedEn : Option String)
deriving DecidableEq, Repr

/-- One iteration of the row loop of parse_skill_table
(scrape_all_spells.py lines 92-159), over the state
(current_tier, spells dict). -/
def parseStep (defaultSchool : String) (st : String × List (String × Spell))
    (row : Row) : String × List (String × Spell) :=
  match row with
  | .tierHeader t => (if t.length > 3 then t else st.1, st.2)
  | .spellRow raw ruUrl resolvedEn =>
      let ruName := cleanRuName raw
      if ruName.length < 2 then st
      else
        let enName := resolvedEn.getD ruName
        let enUrl := if enName ≠ ruName then fextraBase ++ enName else ""
        (st.1, dictInsert st.2 enName
          { ru_name := some ruName
            ru_url := some ruUrl
            en_name := some enName
            en_url := some enUrl
            tier := some st.1
            primary_school := some defaultSchool
            secondary_school := none
            is_combo := none })

/-- parse_skill_table: fold the rows from the initial state
(tier "Неизвестно", empty dict) and return the spells dict. -/
def parseSkillTable (defaultSchool : String) (rows : List Row) :
    List (String × Spell) :=
  (rows.foldl (parseStep defaultSchool) ("Неизвестно", [])).2

/-- The per-school table loop of scrape_schools (lines 206-215): each table's
parse result is merged into the school's spells dict with dict.update. -/
def scrapeSchoolSpells (school : String) (tables : List (List Row)) :
    List (String × Spell) :=
  tables.foldl (fun acc t => dictUpdate acc (parseSkillTable school t)) []

/-- One school link surviving the navbox scan of scrape_schools: the matched
Russian school name, the resolved school page URL, and the tables of the
school page (empty when the page fetch failed). -/
structure GeneralInput where
  school : String
  url : String
  tables : List (List Row)
deriving DecidableEq, Repr

/-- scrape_schools (lines 165-219): walk the links in order, skip names not
matching a known school and URLs already processed, and (re)assign the
school's entry with its scraped spells. -/
def scrapeSchools (inputs : List GeneralInput) : List (String × SchoolRec) :=
  (inputs.foldl
    (fun (st : List String × List (String × SchoolRec)) i =>
      match ruToEnSchool i.school with
      | some en =>
          if st.1.contains i.url then st
          else (st.1 ++ [i.url],
            dictInsert st.2 i.school
              { en_name := en, ru_url := some i.url,
                spells := scrapeSchoolSpells i.school i.tables })
      | none => st)
    ([], [])).2

def specialKey : String := "Особые навыки"

def comboKey : String := "Комбинированные навыки"

/-- scrape_special_skills (lines 221-236): `none` models a failed page fetch
(the function returns an empty dict); otherwise one school keyed
"Особые навыки" whose spells are the parsed tables merged in order. -/
def scrapeSpecial (inp : Option (List (List Row))) : List (String × SchoolRec) :=
  match inp with
  | none => []
  | some tables =>
      [(specialKey,
        { en_name := "Special",
          spells := tables.foldl
            (fun acc t => dictUpdate acc (parseSkillTable specialKey t)) [] })]

/-- The spell_lookup table of main (lines 352-360): the school keys, other
than the combo bucket, whose spells dict contains the given name, in catalog
order. -/
def spellLookup (schools : List (String × SchoolRec)) (name : String) :
    List String :=
  (schools.filter (fun s => s.1 ≠ comboKey)).foldl
    (fun acc s => if s.2.spells.any (fun p => p.1 = name) then acc ++ [s.1] else acc)
    []

/-- The in-place combo update of an existing catalog entry
(scrape_all_spells.py lines 381-386): is_combo and secondary_school are
overwritten from the combo record, and en_url is filled only when the
existing value is falsy and the incoming one truthy. -/
def comboUpdate (e : Spell) (sd : Spell) : Spell :=
  let e1 := { e with is_combo := some true, secondary_school := sd.secondary_school }
  if !truthyS e1.en_url && truthyS sd.en_url then { e1 with en_url := sd.en_url }
  else e1

/-- Apply the combo update to the entry `name` of the school keyed `k`. -/
def updateSpellIn (schools : List (String × SchoolRec)) (k name : String)
    (sd : Spell) : List (String × SchoolRec) :=
  schools.map (fun s =>
    if s.1 = k then
      (s.1, { s.2 with spells := (s.2.spells.map
        (fun p => if p.1 = name then (p.1, comboUpdate p.2 sd) else p)) })
    else s)

/-- Assign the spell `name` into the spells dict of the school keyed `k`. -/
def addSpellTo (schools : List (String × SchoolRec)) (k name : String)
    (sd : Spell) : List (String × SchoolRec) :=
  schools.map (fun s =>
    if s.1 = k then (s.1, { s.2 with spells := dictInsert s.2.spells name sd })
    else s)

/-- The orphan branch of the combo merge (lines 394-397): ensure the combo
bucket school exists, then assign the record there. -/
def orphanFile (schools : List (String × SchoolRec)) (name : String)
    (sd : Spell) : List (String × SchoolRec) :=
  let schools' :=
    if schools.any (fun s => s.1 = comboKey) then schools
    else schools ++ [(comboKey, { en_name := "Crafted", spells := [] })]
  addSpellTo schools' comboKey name sd

/-- Merging one combo record into the catalog (lines 371-397).  `lookup` is
the spell_lookup table built from the catalog before the combo loop started.
When the name is found somewhere, every listed school's entry is updated;
otherwise the record is added under its primary school when that school
exists, else filed in the combo bucket. -/
def comboMergeOne (lookup : String → List String)
    (schools : List (String × SchoolRec)) (name : String) (sd : Spell) :
    List (String × SchoolRec) :=
  match lookup name with
  | [] =>
      match sd.primary_school with
      | some p =>
          if p ≠ "" ∧ schools.any (fun s => s.1 = p) then addSpellTo schools p name sd
          else orphanFile schools name sd
      | none => orphanFile schools name sd
  | ks => ks.foldl (fun sch k => updateSpellIn sch k name sd) schools

/-- main of scrape_all_spells.py (lines 339-397): general pass, then special
pass merged by dict.update, then the combo records merged one by one against
the spell_lookup snapshot.  `combo = none` models a failed combo-page fetch
(scrape_combo_skills returned an empty dict, so the merge block is skipped). -/
def mainPipeline (general : List GeneralInput) (special : Option (List (List Row)))
    (combo : Option (List (String × Spell))) : List (String × SchoolRec) :=
  let schools0 := dictUpdate (scrapeSchools general) (scrapeSpecial special)
  match combo with
  | none => schools0
  | some comboSpells =>
      let lookup := spellLookup schools0
      comboSpells.foldl (fun sch p => comboMergeOne lookup sch p.1 p.2) schools0

/-! ### batch_fetch_infoboxes.py -/

/-- The external outcomes for one record of the batch loop of
batch_fetch_infoboxes.py main (lines 212-244): the spell name, the result of
fetch_infobox (`none` when it returned None, otherwise the infobox html and
the icon it extracted), whether the record carried a truthy ru_url, and the
result of fetch_ru_icon when it was called. -/
structure SpellFetchInput where
  name : String
  fetchResult : Option (String × Option String)
  hasRuUrl : Bool
  ruIcon : Option String
deriving DecidableEq, Repr

/-- The prefer_ru list of main. -/
def preferRu : List String := ["Каннибализм"]

/-- One iteration of the batch loop, producing the record's final
(infobox_html, icon) after the Russian-icon fallback. -/
def processRecord (s : SpellFetchInput) : String × Option String :=
  let r := s.fetchResult.getD ("", none)
  let icon :=
    if s.hasRuUrl then
      if truthyS s.ruIcon && (preferRu.contains s.name || !truthyS r.2) then s.ruIcon
      else r.2
    else r.2
  (r.1, icon)

/-- The batch loop of main: successful records are assigned into the results
dict, records with neither infobox html nor icon increment the error count. -/
def runBatch (spells : List SpellFetchInput) :
    List (String × (String × Option String)) × Nat :=
  spells.foldl
    (fun st s =>
      let r := processRecord s
      if r.1 != "" || truthyS r.2 then (dictInsert st.1 s.name r, st.2)
      else (st.1, st.2 + 1))
    ([], 0)

/-- The return value of main on a completed run (line 252), passed to
sys.exit: 0 when no record failed, 2 otherwise. -/
def batchExitCode (spells : List SpellFetchInput) : Nat :=
  if (runBatch spells).2 = 0 then 0 else 2

/-- The per-school key-uniqueness invariant of a catalog: every school's
spells dict has pairwise distinct keys. -/
def schoolKeysOk (schools : List (String × SchoolRec)) : Prop :=
  ∀ s ∈ schools, (s.2.spells.map Prod.fst).Nodup

/-! ## Association-list lemmas -/

theorem dictUpdate_cons {α : Type} (m : List (String × α)) (p : String × α)
    (l : List (String × α)) :
    dictUpdate m (p :: l) = dictUpdate (dictInsert m p.1 p.2) l := rfl

theorem lookupD_dictInsert {α : Type} (m : List (String × α)) (k k' : String)
    (v : α) :
    lookupD (dictInsert m k v) k' = if k = k' then some v else lookupD m k' := by
  induction m with
  | nil => simp [dictInsert, lookupD]
  | cons p rest ih =>
    by_cases hp : p.1 = k
    · rw [show dictInsert (p :: rest) k v = (k, v) :: rest from by
        simp [dictInsert, hp]]
      by_cases hk : k = k'
      · simp [lookupD, hk]
      · have hpk : ¬ p.1 = k' := fun h => hk (hp.symm.trans h)
        simp [lookupD, hk, hpk]
    · rw [show dictInsert (p :: rest) k v = p :: dictInsert rest k v from by
        simp [dictInsert, hp]]
      by_cases hpk : p.1 = k'
      · have hk : ¬ k = k' := fun h => hp (h ▸ hpk)
        simp [lookupD, hpk, hk]
      · simp [lookupD, hpk, ih]

theorem lookupD_eq_none_iff {α : Type} (l : List (String × α)) (k : String) :
    lookupD l k = none ↔ k ∉ l.map Prod.fst := by
  induction l with
  | nil => simp [lookupD]
  | cons p rest ih =>
    simp only [lookupD, List.map_cons, List.mem_cons]
    by_cases hp : p.1 = k
    · simp [hp]
    · simp only [if_neg hp, ih]
      constructor
      · intro h hc
        rcases hc with h1 | h1
        · exact hp h1.symm
        · exact h h1
      · intro h h1
        exact h (Or.inr h1)

theorem lookupD_mem {α : Type} {l : List (String × α)} {k : String} {v : α}
    (h : lookupD l k = some v) : (k, v) ∈ l := by
  induction l with
  | nil => simp [lookupD] at h
  | cons p rest ih =>
    by_cases hp : p.1 = k
    · simp only [lookupD, if_pos hp, Option.some.injEq] at h
      apply List.mem_cons.mpr
      left
      cases p
      simp_all
    · simp only [lookupD, if_neg hp] at h
      exact List.mem_cons_of_mem _ (ih h)

theorem lookupD_of_mem_nodup {α : Type} {l : List (String × α)} {k : String}
    {v : α} (hn : (l.map Prod.fst).Nodup) (h : (k, v) ∈ l) :
    lookupD l k = some v := by
  induction l with
  | nil => simp at h
  | cons p rest ih =>
    simp only [List.map_cons, List.nodup_cons] at hn
    rcases List.mem_cons.mp h with h1 | h1
    · simp [lookupD, ← h1]
    · have hk : p.1 ≠ k := by
        intro he
        exact hn.1 (he ▸ (List.mem_map_of_mem Prod.fst h1))
      simp [lookupD, hk, ih hn.2 h1]

theorem lookupD_perm {α : Type} {l l' : List (String × α)} (hp : l.Perm l')
    (hn : (l.map Prod.fst).Nodup) (k : String) :
    lookupD l k = lookupD l' k := by
  have hn' : (l'.map Prod.fst).Nodup := ((hp.map Prod.fst).nodup_iff).mp hn
  cases h : lookupD l k with
  | some v => exact (lookupD_of_mem_nodup hn' (hp.mem_iff.mp (lookupD_mem h))).symm
  | none =>
    rw [lookupD_eq_none_iff] at h
    rw [eq_comm, lookupD_eq_none_iff]
    exact fun hc => h ((hp.map Prod.fst).mem_iff.mpr hc)

theorem keys_dictInsert_mem {α : Type} (m : List (String × α)) (k : String)
    (v : α) (a : String) :
    a ∈ (dictInsert m k v).map Prod.fst ↔ a ∈ m.map Prod.fst ∨ a = k := by
  induction m with
  | nil => simp [dictInsert]
  | cons p rest ih =>
    by_cases hp : p.1 = k
    · subst hp
      simp [dictInsert]
      tauto
    · simp [dictInsert, hp, ih]
      tauto

theorem nodup_keys_dictInsert {α : Type} (m : List (String × α)) (k : String)
    (v : α) (h : (m.map Prod.fst).Nodup) :
    ((dictInsert m k v).map Prod.fst).Nodup := by
  induction m with
  | nil => simp [dictInsert]
  | cons p rest ih =>
    simp only [List.map_cons, List.nodup_cons] at h
    by_cases hp : p.1 = k
    · rw [show dictInsert (p :: rest) k v = (k, v) :: rest from by
        simp [dictInsert, hp]]
      rw [List.map_cons, List.nodup_cons]
      exact ⟨hp ▸ h.1, h.2⟩
    · simp only [dictInsert, if_neg hp, List.map_cons, List.nodup_cons]
      refine ⟨?_, ih h.2⟩
      intro hmem
      rcases (keys_dictInsert_mem rest k v p.1).mp hmem with h1 | h1
      · exact h.1 h1
      · exact hp h1

theorem nodup_keys_dictUpdate {α : Type} (m : List (String × α))
    (l : List (String × α)) (h : (m.map Prod.fst).Nodup) :
    ((dictUpdate m l).map Prod.fst).Nodup := by
  induction l generalizing m with
  | nil => exact h
  | cons p rest ih => exact ih _ (nodup_keys_dictInsert _ _ _ h)

theorem lookupD_dictUpdate {α : Type} (m l : List (String × α)) (k : String)
    (hn : (l.map Prod.fst).Nodup) :
    lookupD (dictUpdate m l) k =
      match lookupD l k with
      | some v => some v
      | none => lookupD m k := by
  induction l generalizing m with
  | nil => simp [dictUpdate, lookupD]
  | cons p rest ih =>
    simp only [List.map_cons, List.nodup_cons] at hn
    rw [dictUpdate_cons, ih _ hn.2]
    by_cases hk : p.1 = k
    · have hrest : lookupD rest k = none := by
        rw [lookupD_eq_none_iff]
        exact hk ▸ hn.1
      simp [lookupD, hk, hrest, lookupD_dictInsert]
    · simp only [lookupD, if_neg hk, lookupD_dictInsert, hk, if_false]

theorem mem_dictInsert {α : Type} {m : List (String × α)} {k : String} {v : α}
    {p : String × α} (h : p ∈ dictInsert m k v) : p ∈ m ∨ p = (k, v) := by
  induction m with
  | nil => simpa [dictInsert] using h
  | cons q rest ih =>
    by_cases hq : q.1 = k
    · simp only [dictInsert, if_pos hq] at h
      rcases List.mem_cons.mp h with h1 | h1
      · right; exact h1
      · left; exact List.mem_cons_of_mem _ h1
    · simp only [dictInsert, if_neg hq] at h
      rcases List.mem_cons.mp h with h1 | h1
      · left; exact h1 ▸ List.mem_cons_self _ _
      · rcases ih h1 with h2 | h2
        · left; exact List.mem_cons_of_mem _ h2
        · right; exact h2

/-! ## Contrast-assignment lemmas (apply_combo_schools.py) -/

theorem targetSecondary_left (a b : String) (h : ¬ b = a) :
    targetSecondary a b (some a) = some b := by
  have hb : (b != a) = true := by
    simp only [bne_iff_ne, ne_eq]
    exact h
  simp [targetSecondary, List.filter, hb]

theorem targetSecondary_right (a b : String) (h : ¬ a = b) :
    targetSecondary a b (some b) = some a := by
  have ha : (a != b) = true := by
    simp only [bne_iff_ne, ne_eq]
    exact h
  simp [targetSecondary, List.filter, ha]

theorem targetSecondary_fallback (a b p : String) (h1 : ¬ p = a) (h2 : ¬ p = b) :
    targetSecondary a b (some p) = some b := by
  simp [targetSecondary, h1, h2]

theorem targetSecondary_ne (a b : String) (h : a ≠ b) (cp : Option String) :
    ∃ t, targetSecondary a b cp = some t ∧ some t ≠ cp := by
  cases cp with
  | none => exact ⟨b, rfl, by simp⟩
  | some p =>
    by_cases hpa : p = a
    · subst hpa
      refine ⟨b, targetSecondary_left p b (fun hh => h hh.symm), ?_⟩
      intro hc
      exact h (Option.some.inj hc).symm
    · by_cases hpb : p = b
      · subst hpb
        refine ⟨a, targetSecondary_right a p h, ?_⟩
        intro hc
        exact h (Option.some.inj hc)
      · refine ⟨b, targetSecondary_fallback a b p hpa hpb, ?_⟩
        intro hc
        exact hpb (Option.some.inj hc).symm

theorem contrastStep_primary (a b : String) (sp : Spell) :
    ((contrastStep a b sp).1).primary_school = sp.primary_school := by
  cases h : targetSecondary a b sp.primary_school with
  | none => simp [contrastStep, h]
  | some t =>
    by_cases hs : sp.secondary_school = some t <;> simp [contrastStep, h, hs]

theorem contrastStep_en_name (a b : String) (sp : Spell) :
    ((contrastStep a b sp).1).en_name = sp.en_name := by
  cases h : targetSecondary a b sp.primary_school with
  | none => simp [contrastStep, h]
  | some t =>
    by_cases hs : sp.secondary_school = some t <;> simp [contrastStep, h, hs]

theorem contrastStep_secondary (a b t : String) (sp : Spell)
    (h : targetSecondary a b sp.primary_school = some t) :
    ((contrastStep a b sp).1).secondary_school = some t := by
  by_cases hs : sp.secondary_school = some t <;> simp [contrastStep, h, hs]

theorem contrastStep_idem (a b : String) (sp : Spell) :
    contrastStep a b (contrastStep a b sp).1 = ((contrastStep a b sp).1, false) := by
  cases h : targetSecondary a b sp.primary_school with
  | none => simp [contrastStep, h]
  | some t =>
    by_cases hs : sp.secondary_school = some t
    · simp [contrastStep, h, hs]
    · have h1 : (contrastStep a b sp).1 =
          { sp with secondary_school := some t, is_combo := some true } := by
        simp [contrastStep, h, hs]
      rw [h1]
      simp [contrastStep, h]

theorem applyComboSpell_idem (k : String) (sp : Spell) :
    applyComboSpell k (applyComboSpell k sp).1 = ((applyComboSpell k sp).1, 0) := by
  cases h : lookupDual (sp.en_name.getD k) with
  | none => simp [applyComboSpell, h]
  | some ab =>
    obtain ⟨a, b⟩ := ab
    have hen := contrastStep_en_name a b sp
    simp [applyComboSpell, h, hen, contrastStep_idem]

theorem foldl_accum {α β : Type} (g : α → β) (c : α → Nat) (l : List α)
    (acc : List β × Nat) :
    l.foldl (fun st x => (st.1 ++ [g x], st.2 + c x)) acc =
      (acc.1 ++ l.map g, acc.2 + (l.map c).sum) := by
  induction l generalizing acc with
  | nil => simp
  | cons x xs ih => simp [ih, Nat.add_assoc]

theorem applyComboSpells_eq (l : List (String × Spell)) :
    applyComboSpells l =
      (l.map (fun p => (p.1, (applyComboSpell p.1 p.2).1)),
       (l.map (fun p => (applyComboSpell p.1 p.2).2)).sum) := by
  have := foldl_accum (fun p : String × Spell => (p.1, (applyComboSpell p.1 p.2).1))
    (fun p : String × Spell => (applyComboSpell p.1 p.2).2) l ([], 0)
  simpa [applyComboSpells] using this

theorem applyComboSpells_idem (l : List (String × Spell)) :
    applyComboSpells (applyComboSpells l).1 = ((applyComboSpells l).1, 0) := by
  rw [applyComboSpells_eq l, applyComboSpells_eq]
  simp only [List.map_map, Prod.mk.injEq]
  constructor
  · apply List.map_congr_left
    intro p _
    simp [Function.comp, applyComboSpell_idem]
  · apply List.sum_eq_zero
    intro x hx
    simp only [List.map_map, List.mem_map] at hx
    obtain ⟨p, _, hp⟩ := hx
    rw [← hp]
    simp [Function.comp, applyComboSpell_idem]

theorem applyCombo_eq (cat : List (String × SchoolRec)) :
    applyCombo cat =
      (cat.map (fun s => (s.1, { s.2 with spells := (applyComboSpells s.2.spells).1 })),
       (cat.map (fun s => (applyComboSpells s.2.spells).2)).sum) := by
  have := foldl_accum
    (fun s : String × SchoolRec =>
      (s.1, { s.2 with spells := (applyComboSpells s.2.spells).1 }))
    (fun s : String × SchoolRec => (applyComboSpells s.2.spells).2) cat ([], 0)
  simpa [applyCombo] using this

/-! ## Claims about the contrast assignment -/

/-- Claim C1: running the contrast assignment of apply_combo_schools.py a
second time over any catalog performs no mutation: the catalog after the
second run equals the catalog after the first, and the second run's
fixed_count is zero. -/
theorem applyCombo_idempotent (cat : List (String × SchoolRec)) :
    applyCombo (applyCombo cat).1 = ((applyCombo cat).1, 0) := by
  rw [applyCombo_eq cat, applyCombo_eq]
  simp only [List.map_map, Prod.mk.injEq]
  constructor
  · apply List.map_congr_left
    intro s _
    simp [Function.comp, applyComboSpells_idem]
  · apply List.sum_eq_zero
    intro x hx
    simp only [List.map_map, List.mem_map] at hx
    obtain ⟨s, _, hs⟩ := hx
    rw [← hs]
    simp [Function.comp, applyComboSpells_idem]

/-- Claim C2: for a pair [a, b] with distinct members, the contrast step maps
primary a to secondary b and primary b to secondary a, and the resulting
secondary_school never equals primary_school, in the fallback branch
included. -/
theorem contrastStep_contrast_correct (a b : String) (sp : Spell) (h : a ≠ b) :
    (sp.primary_school = some a →
      ((contrastStep a b sp).1).secondary_school = some b)
  ∧ (sp.primary_school = some b →
      ((contrastStep a b sp).1).secondary_school = some a)
  ∧ ((contrastStep a b sp).1).secondary_school ≠
      ((contrastStep a b sp).1).primary_school := by
  obtain ⟨t, ht, hne⟩ := targetSecondary_ne a b h sp.primary_school
  refine ⟨?_, ?_, ?_⟩
  · intro hp
    exact contrastStep_secondary a b b sp
      (by rw [hp]; exact targetSecondary_left a b (fun hh => h hh.symm))
  · intro hp
    exact contrastStep_secondary a b a sp (by rw [hp]; exact targetSecondary_right a b h)
  · rw [contrastStep_primary, contrastStep_secondary a b t sp ht]
    exact hne

/-- Witness for C2 at the pair [Аэротеургия, Военное дело] and a spell whose
primary is Аэротеургия. -/
theorem contrastStep_contrast_correct_witness :
    ((contrastStep AERO WARFARE { primary_school := some AERO }).1).secondary_school
      = some WARFARE :=
  (contrastStep_contrast_correct AERO WARFARE { primary_school := some AERO }
    (by decide)).1 rfl

/-- Counterexample to claim C3: in the data-inconsistency fallback the code
assigns components[1], the class-style member, not the member belonging to
the elemental schools as the spec states.  For the pair of "Breathing Bubble"
(elemental member Аэротеургия, class-style member Военное дело) and a spell
whose stored primary Геомантия is not a member of the pair, the assigned
secondary is Военное дело, which differs from the elemental member. -/
theorem fallback_elemental_counterexample :
    lookupDual "Breathing Bubble" = some (AERO, WARFARE)
  ∧ AERO ∈ elementalSchools
  ∧ WARFARE ∉ elementalSchools
  ∧ ((contrastStep AERO WARFARE { primary_school := some GEO }).1).secondary_school
      = some WARFARE
  ∧ (some WARFARE : Option String) ≠ some AERO := by
  refine ⟨rfl, by decide, by decide, rfl, by decide⟩

/-- Amended claim C3: in every DUAL_MAP pair the first member is the
elemental school and the second the class-style one, and for a spell whose
stored primary is not a member of the pair the code assigns the second
(class-style) member as secondary; the "Fixed" diagnostic is printed exactly
when this changes the stored secondary, and the run never fails. -/
theorem fallback_second_member (a b p : String) (sp : Spell)
    (hp : sp.primary_school = some p) (h1 : p ≠ a) (h2 : p ≠ b) :
    dualMap.all
      (fun e => elementalSchools.contains e.2.1 && !(elementalSchools.contains e.2.2))
      = true
  ∧ ((contrastStep a b sp).1).secondary_school = some b
  ∧ ((contrastStep a b sp).2 = true ↔ sp.secondary_school ≠ some b) := by
  have ht : targetSecondary a b sp.primary_school = some b := by
    rw [hp]; exact targetSecondary_fallback a b p h1 h2
  refine ⟨by decide, contrastStep_secondary a b b sp ht, ?_⟩
  by_cases hs : sp.secondary_school = some b <;> simp [contrastStep, ht, hs]

/-- Witness for the amended C3 at the pair [Аэротеургия, Военное дело] and a
spell whose stored primary Геомантия is not a member. -/
theorem fallback_second_member_witness :
    ((contrastStep AERO WARFARE { primary_school := some GEO }).1).secondary_school
      = some WARFARE :=
  (fallback_second_member AERO WARFARE GEO { primary_school := some GEO }
    rfl (by decide) (by decide)).2.1

/-- Counterexample to claim C8: the contrast pass iterates the catalog, not
the pair table, so a DUAL_MAP entry absent from the catalog is skipped and no
record is created for it: on a catalog with one empty school, the pass
returns the catalog unchanged with zero fixes, and no school contains the
absent table entry "Breathing Bubble" afterwards. -/
theorem absent_entry_skipped_counterexample :
    applyCombo [(PYRO, { en_name := "Pyrokinetic", spells := [] })] =
      ([(PYRO, { en_name := "Pyrokinetic", spells := [] })], 0)
  ∧ lookupDual "Breathing Bubble" = some (AERO, WARFARE)
  ∧ ((applyCombo [(PYRO, { en_name := "Pyrokinetic", spells := [] })]).1.all
      (fun s => (lookupD s.2.spells "Breathing Bubble").isNone)) = true := by
  refine ⟨rfl, rfl, rfl⟩

/-- Amended claim C8: the contrast assignment never creates records at all:
it preserves the school keys and every school's spell keys exactly, so
pair-table entries absent from the catalog are skipped, not filed through any
orphan handling. -/
theorem applyCombo_preserves_keys (cat : List (String × SchoolRec)) :
    (applyCombo cat).1.map (fun s => (s.1, s.2.spells.map Prod.fst)) =
      cat.map (fun s => (s.1, s.2.spells.map Prod.fst)) := by
  rw [applyCombo_eq]
  simp only [List.map_map]
  apply List.map_congr_left
  intro s _
  simp only [Function.comp_apply, applyComboSpells_eq, List.map_map]
  have hk : List.map
      (Prod.fst ∘ fun p : String × Spell => (p.1, (applyComboSpell p.1 p.2).1))
      s.2.spells = List.map Prod.fst s.2.spells :=
    List.map_congr_left (fun p _ => rfl)
  rw [hk]

/-- Claim C10: when the stored secondary_school already equals the computed
target, the contrast step returns the record unchanged with no change
reported; in particular is_combo keeps whatever value (false or missing) it
had. -/
theorem contrastStep_frame (a b t : String) (sp : Spell)
    (h1 : targetSecondary a b sp.primary_school = some t)
    (h2 : sp.secondary_school = some t) :
    contrastStep a b sp = (sp, false) := by
  simp [contrastStep, h1, h2]

/-- Witness for C10: a spell with primary Аэротеургия, secondary already
Военное дело and is_combo absent is left exactly as it is. -/
theorem contrastStep_frame_witness :
    contrastStep AERO WARFARE
        { primary_school := some AERO, secondary_school := some WARFARE } =
      ({ primary_school := some AERO, secondary_school := some WARFARE }, false) :=
  contrastStep_frame AERO WARFARE WARFARE
    { primary_school := some AERO, secondary_school := some WARFARE }
    (by decide) rfl

/-! ## Key uniqueness within one school (scrape_all_spells.py) -/

theorem nodup_keys_parse_fold (school : String) (rows : List Row) :
    ∀ st : String × List (String × Spell), (st.2.map Prod.fst).Nodup →
      (((rows.foldl (parseStep school) st).2).map Prod.fst).Nodup := by
  induction rows with
  | nil => intro st h; exact h
  | cons r rest ih =>
    intro st h
    simp only [List.foldl_cons]
    apply ih
    cases r with
    | tierHeader t => exact h
    | spellRow raw u en =>
      simp only [parseStep]
      split
      · exact h
      · exact nodup_keys_dictInsert _ _ _ h

theorem nodup_keys_parseSkillTable (school : String) (rows : List Row) :
    ((parseSkillTable school rows).map Prod.fst).Nodup :=
  nodup_keys_parse_fold school rows ("Неизвестно", []) (by simp)

theorem nodup_keys_scrapeSchoolSpells (school : String) (tables : List (List Row)) :
    ((scrapeSchoolSpells school tables).map Prod.fst).Nodup := by
  have h : ∀ (ts : List (List Row)) (acc : List (String × Spell)),
      (acc.map Prod.fst).Nodup →
      (((ts.foldl (fun a t => dictUpdate a (parseSkillTable school t)) acc)).map
        Prod.fst).Nodup := by
    intro ts
    induction ts with
    | nil => intro acc h; exact h
    | cons t rest ih => intro acc h; exact ih _ (nodup_keys_dictUpdate _ _ h)
  exact h tables [] (by simp)

theorem schoolKeysOk_dictInsert {m : List (String × SchoolRec)} {k : String}
    {sch : SchoolRec} (hm : schoolKeysOk m)
    (hs : (sch.spells.map Prod.fst).Nodup) :
    schoolKeysOk (dictInsert m k sch) := by
  intro s hmem
  rcases mem_dictInsert hmem with h1 | h1
  · exact hm s h1
  · rw [h1]
    exact hs

theorem schoolKeysOk_dictUpdate {l : List (String × SchoolRec)} :
    ∀ {m : List (String × SchoolRec)}, schoolKeysOk m → schoolKeysOk l →
      schoolKeysOk (dictUpdate m l) := by
  induction l with
  | nil => intro m hm _; exact hm
  | cons p rest ih =>
    intro m hm hl
    rw [dictUpdate_cons]
    exact ih (schoolKeysOk_dictInsert hm (hl p (List.mem_cons_self _ _)))
      (fun s hs => hl s (List.mem_cons_of_mem _ hs))

theorem schoolKeysOk_scrapeSchools (inputs : List GeneralInput) :
    schoolKeysOk (scrapeSchools inputs) := by
  have h : ∀ (l : List GeneralInput) (st : List String × List (String × SchoolRec)),
      schoolKeysOk st.2 →
      schoolKeysOk ((l.foldl
        (fun st i =>
          match ruToEnSchool i.school with
          | some en =>
              if st.1.contains i.url then st
              else (st.1 ++ [i.url],
                dictInsert st.2 i.school
                  { en_name := en, ru_url := some i.url,
                    spells := scrapeSchoolSpells i.school i.tables })
          | none => st) st).2) := by
    intro l
    induction l with
    | nil => intro st h; exact h
    | cons i rest ih =>
      intro st h
      simp only [List.foldl_cons]
      apply ih
      cases hru : ruToEnSchool i.school with
      | none =>
        simp only [hru]
        exact h
      | some en =>
        simp only [hru]
        split
        · exact h
        · exact schoolKeysOk_dictInsert h (nodup_keys_scrapeSchoolSpells _ _)
  exact h inputs ([], []) (by intro s hs; simp at hs)

theorem schoolKeysOk_scrapeSpecial (inp : Option (List (List Row))) :
    schoolKeysOk (scrapeSpecial inp) := by
  cases inp with
  | none => intro s hs; simp [scrapeSpecial] at hs
  | some tables =>
    intro s hs
    simp only [scrapeSpecial, List.mem_singleton] at hs
    rw [hs]
    exact nodup_keys_scrapeSchoolSpells specialKey tables

theorem keys_map_entry (spells : List (String × Spell)) (name : String)
    (sd : Spell) :
    ((spells.map (fun p => if p.1 = name then (p.1, comboUpdate p.2 sd) else p)).map
      Prod.fst) = spells.map Prod.fst := by
  rw [List.map_map]
  apply List.map_congr_left
  intro p _
  by_cases hp : p.1 = name <;> simp [hp]

theorem schoolKeysOk_updateSpellIn {schools : List (String × SchoolRec)}
    (h : schoolKeysOk schools) (k name : String) (sd : Spell) :
    schoolKeysOk (updateSpellIn schools k name sd) := by
  intro s hs
  simp only [updateSpellIn, List.mem_map] at hs
  obtain ⟨s0, hs0, rfl⟩ := hs
  by_cases hk : s0.1 = k
  · simp only [if_pos hk]
    rw [keys_map_entry]
    exact h s0 hs0
  · simp only [if_neg hk]
    exact h s0 hs0

theorem schoolKeysOk_addSpellTo {schools : List (String × SchoolRec)}
    (h : schoolKeysOk schools) (k name : String) (sd : Spell) :
    schoolKeysOk (addSpellTo schools k name sd) := by
  intro s hs
  simp only [addSpellTo, List.mem_map] at hs
  obtain ⟨s0, hs0, rfl⟩ := hs
  by_cases hk : s0.1 = k
  · simp only [if_pos hk]
    exact nodup_keys_dictInsert _ _ _ (h s0 hs0)
  · simp only [if_neg hk]
    exact h s0 hs0

theorem schoolKeysOk_orphanFile {schools : List (String × SchoolRec)}
    (h : schoolKeysOk schools) (name : String) (sd : Spell) :
    schoolKeysOk (orphanFile schools name sd) := by
  unfold orphanFile
  apply schoolKeysOk_addSpellTo
  split
  · exact h
  · intro s hs
    rcases List.mem_append.mp hs with h1 | h1
    · exact h s h1
    · simp only [List.mem_singleton] at h1
      rw [h1]
      simp

theorem schoolKeysOk_comboMergeOne (lookup : String → List String)
    {schools : List (String × SchoolRec)} (h : schoolKeysOk schools)
    (name : String) (sd : Spell) :
    schoolKeysOk (comboMergeOne lookup schools name sd) := by
  unfold comboMergeOne
  cases hl : lookup name with
  | nil =>
    cases hp : sd.primary_school with
    | some p =>
      dsimp only
      split
      · exact schoolKeysOk_addSpellTo h p name sd
      · exact schoolKeysOk_orphanFile h name sd
    | none =>
      dsimp only
      exact schoolKeysOk_orphanFile h name sd
  | cons k ks =>
    have haux : ∀ (l : List String) (sch : List (String × SchoolRec)),
        schoolKeysOk sch →
        schoolKeysOk (l.foldl (fun sch k => updateSpellIn sch k name sd) sch) := by
      intro l
      induction l with
      | nil => intro sch hs; exact hs
      | cons a rest ih =>
        intro sch hs
        exact ih _ (schoolKeysOk_updateSpellIn hs a name sd)
    exact haux _ _ h

/-! ## Claims about the scrape pipeline -/

/-- Counterexample to claim C4: a canonical identifier supplied by both a
school listing and the special listing ends up in two categories' spells
maps: for the concrete input in which the Пирокинетика page and the special
page both list the spell resolved to "X", exactly two schools of the final
catalog contain the key "X". -/
theorem membership_duplication_counterexample :
    ((mainPipeline
        [{ school := PYRO, url := "u", tables := [[Row.spellRow "АБ" "r" (some "X")]] }]
        (some [[Row.spellRow "АБ" "r" (some "X")]]) none).countP
      (fun s => s.2.spells.any (fun p => p.1 == "X"))) = 2 := by decide

/-- Amended claim C4: a canonical identifier appears at most once within any
single category's spells map after the pipeline (keys are pairwise distinct
per school), but it may appear in several categories' maps when several
listings supply it; cross-category uniqueness is not enforced. -/
theorem pipeline_school_keys_nodup (general : List GeneralInput)
    (special : Option (List (List Row))) (combo : Option (List (String × Spell)))
    (s : String × SchoolRec) (hs : s ∈ mainPipeline general special combo) :
    (s.2.spells.map Prod.fst).Nodup := by
  have h0 : schoolKeysOk (dictUpdate (scrapeSchools general) (scrapeSpecial special)) :=
    schoolKeysOk_dictUpdate (schoolKeysOk_scrapeSchools general)
      (schoolKeysOk_scrapeSpecial special)
  cases combo with
  | none => exact h0 s hs
  | some comboSpells =>
    have haux : ∀ (l : List (String × Spell)) (sch : List (String × SchoolRec)),
        schoolKeysOk sch →
        schoolKeysOk (l.foldl
          (fun sch p => comboMergeOne
            (spellLookup (dictUpdate (scrapeSchools general) (scrapeSpecial special)))
            sch p.1 p.2) sch) := by
      intro l
      induction l with
      | nil => intro sch hsch; exact hsch
      | cons p rest ih =>
        intro sch hsch
        exact ih _ (schoolKeysOk_comboMergeOne _ hsch p.1 p.2)
    exact haux comboSpells _ h0 s hs

/-- Witness for the amended C4 at a concrete pipeline run producing one
school holding one spell. -/
theorem pipeline_school_keys_nodup_witness :
    ((((specialKey,
      { en_name := "Special", ru_url := none,
        spells := [("X",
          { ru_name := some "АБ", ru_url := some "r", en_name := some "X",
            en_url := some "https://divinityoriginalsin2.wiki.fextralife.com/X",
            tier := some "Неизвестно", primary_school := some specialKey,
            secondary_school := none, is_combo := none })] }) :
      String × SchoolRec)).2.spells.map Prod.fst).Nodup :=
  pipeline_school_keys_nodup [] (some [[Row.spellRow "АБ" "r" (some "X")]]) none
    _ (by decide)

/-- Counterexample to claim C5: the tier label does regress inside a single
pass: with two tables of one school page both listing the spell resolved to
"X", the first under header "Tier One" and the second under "Tier Two", the
merged school carries tier "Tier Two" although "Tier One" had already been
set and "Tier Two" is a different non-empty value (dict.update replaces the
whole record). -/
theorem tier_regress_counterexample :
    (lookupD (scrapeSchoolSpells PYRO
        [[Row.tierHeader "Tier One", Row.spellRow "АБ" "u1" (some "X")]]) "X").map
        Spell.tier
      = some (some "Tier One")
  ∧ (lookupD (scrapeSchoolSpells PYRO
        [[Row.tierHeader "Tier One", Row.spellRow "АБ" "u1" (some "X")],
         [Row.tierHeader "Tier Two", Row.spellRow "ВГ" "u2" (some "X")]]) "X").map
        Spell.tier
      = some (some "Tier Two")
  ∧ ("Tier Two" : String) ≠ "Tier One"
  ∧ ("Tier Two" : String) ≠ "" := by decide

/-- Amended claim C5: display names and the tier label are preserved only by
the combo-listing merge, which never changes ru_name, en_name or tier of an
existing record and keeps a populated en_url; within the listing passes a
later record for the same identifier replaces the earlier one wholesale, so
names and tier follow the last record seen. -/
theorem comboUpdate_preserves_fill_fields (e sd : Spell)
    (h : truthyS e.en_url = true) :
    (comboUpdate e sd).ru_name = e.ru_name
  ∧ (comboUpdate e sd).en_name = e.en_name
  ∧ (comboUpdate e sd).tier = e.tier
  ∧ (comboUpdate e sd).en_url = e.en_url := by
  unfold comboUpdate
  simp [h]

/-- Witness for the amended C5: an existing record with populated en_url and
tier keeps both through a combo update. -/
theorem comboUpdate_preserves_fill_fields_witness :
    (comboUpdate { en_url := some "u", tier := some "t" }
      { en_url := some "v" }).tier = some "t" :=
  (comboUpdate_preserves_fill_fields { en_url := some "u", tier := some "t" }
    { en_url := some "v" } (by decide)).2.2.1

/-- Counterexample to claim C6: the merged record set does depend on the
incidental ordering of records within a single pass: swapping two rows that
resolve to the same canonical identifier "X" changes the final record for
"X" (the two orderings are permutations of each other, yet the lookups
differ). -/
theorem pass_order_counterexample :
    ([Row.spellRow "АБ" "u1" (some "X"), Row.spellRow "ВГ" "u2" (some "X")] :
        List Row).Perm
      [Row.spellRow "ВГ" "u2" (some "X"), Row.spellRow "АБ" "u1" (some "X")]
  ∧ lookupD (parseSkillTable PYRO
        [Row.spellRow "АБ" "u1" (some "X"), Row.spellRow "ВГ" "u2" (some "X")]) "X"
      ≠ lookupD (parseSkillTable PYRO
        [Row.spellRow "ВГ" "u2" (some "X"), Row.spellRow "АБ" "u1" (some "X")]) "X" :=
  ⟨List.Perm.swap _ _ _, by decide⟩

/-- Amended claim C6: merging the same passes in the same order is a
deterministic function of its input, and the merged record map is invariant
under permutation of a pass's records provided no two records of the pass
share a canonical identifier; with duplicate identifiers the last record
wins, so the incidental order matters. -/
theorem dictUpdate_perm_invariant {α : Type} (m l l' : List (String × α))
    (k : String) (hp : l.Perm l') (hn : (l.map Prod.fst).Nodup) :
    lookupD (dictUpdate m l) k = lookupD (dictUpdate m l') k := by
  have hn' : (l'.map Prod.fst).Nodup := ((hp.map Prod.fst).nodup_iff).mp hn
  rw [lookupD_dictUpdate m l k hn, lookupD_dictUpdate m l' k hn',
    lookupD_perm hp hn k]

/-- Witness for the amended C6: updating with two distinct-keyed spell
records in either order gives the same lookup result. -/
theorem dictUpdate_perm_invariant_witness :
    lookupD (dictUpdate ([] : List (String × Spell))
        [("a", { tier := some "1" }), ("b", { tier := some "2" })]) "a"
      = lookupD (dictUpdate ([] : List (String × Spell))
        [("b", { tier := some "2" }), ("a", { tier := some "1" })]) "a" :=
  dictUpdate_perm_invariant [] _ _ "a" (List.Perm.swap _ _ _) (by decide)

/-- Counterexample to claim C7: in the per-field merge of the run (the
combo-listing merge, the code the claim cites) a populated URL field is
never overridden, even by a materially different non-empty incoming value,
while the combo flags are overwritten even by an empty incoming value:
with an existing record holding en_url "http://a" and secondary_school
Некромантия and an incoming record holding en_url "http://b" and an empty
secondary, the merge keeps "http://a" and replaces the populated secondary
by the empty string. -/
theorem url_override_counterexample :
    (comboUpdate { en_url := some "http://a", secondary_school := some NECRO }
        { en_url := some "http://b", secondary_school := some "" }).en_url
      = some "http://a"
  ∧ (some "http://a" : Option String) ≠ some "http://b"
  ∧ (comboUpdate { en_url := some "http://a", secondary_school := some NECRO }
        { en_url := some "http://b", secondary_school := some "" }).secondary_school
      = some ""
  ∧ truthyS (some "") = false := by decide

/-- Amended claim C7: in the combo merge an empty en_url is filled from a
truthy incoming value, a populated en_url is always retained (URL fields are
fill-only, not overridable), and the combo flags is_combo and
secondary_school are overwritten unconditionally. -/
theorem comboUpdate_url_policy (e sd : Spell)
    (h1 : truthyS e.en_url = false) (h2 : truthyS sd.en_url = true) :
    (comboUpdate e sd).en_url = sd.en_url
  ∧ (comboUpdate e sd).is_combo = some true
  ∧ (comboUpdate e sd).secondary_school = sd.secondary_school := by
  unfold comboUpdate
  simp [h1, h2]

/-- Witness for the amended C7: an empty existing URL is filled from the
incoming record. -/
theorem comboUpdate_url_policy_witness :
    (comboUpdate { en_url := none } { en_url := some "v" }).en_url = some "v" :=
  (comboUpdate_url_policy { en_url := none } { en_url := some "v" }
    rfl (by decide)).1

/-! ## Claim about the batch entry points -/

theorem runBatch_errors_le (spells : List SpellFetchInput) :
    (runBatch spells).2 ≤ spells.length := by
  have h : ∀ (l : List SpellFetchInput)
      (st : List (String × (String × Option String)) × Nat),
      (l.foldl
        (fun st s =>
          let r := processRecord s
          if r.1 != "" || truthyS r.2 then (dictInsert st.1 s.name r, st.2)
          else (st.1, st.2 + 1)) st).2 ≤ st.2 + l.length := by
    intro l
    induction l with
    | nil => intro st; simp
    | cons s rest ih =>
      intro st
      simp only [List.foldl_cons, List.length_cons]
      refine le_trans (ih _) ?_
      dsimp only
      split
      · omega
      · omega
  simpa [runBatch] using h spells ([], 0)

/-- Claim C9: on a completed run the batch entry point exits non-zero
exactly when at least one record failed to reconcile; the failure count
never exceeds the processed count, the apply_combo_schools entry point
always exits 0 on a completed run, and a record whose page fetch failed (a
printed diagnostic) but whose icon was recovered from the Russian page does
not count as a failure. -/
theorem batch_exit_iff_failures (spells : List SpellFetchInput)
    (cat : List (String × SchoolRec)) :
    (batchExitCode spells ≠ 0 ↔ 0 < (runBatch spells).2)
  ∧ (runBatch spells).2 ≤ spells.length
  ∧ applyComboExit cat = 0
  ∧ (runBatch [(⟨"n", none, true, some "i"⟩ : SpellFetchInput)]).2 = 0 := by
  refine ⟨?_, runBatch_errors_le spells, rfl, by decide⟩
  unfold batchExitCode
  by_cases h : (runBatch spells).2 = 0
  · simp [h]
  · simp only [if_neg h]
    constructor
    · intro _
      exact Nat.pos_of_ne_zero h
    · intro _
      decide

end TierForge
